import Mathlib

set_option maxHeartbeats 1000000

/- Shallow embedding of the arrival-resources-web client filtering engine
   (src/components/Header.tsx) and the photo proxy (src/app/api/photo/route.ts).
   JavaScript numbers are modelled as rationals, JS strings as Lean strings,
   null as Option, and JS Map objects as association lists with
   last-write-wins lookup semantics. -/

/-- JS string fallback `a || b`: the empty string is falsy. -/
def jsOr (a b : String) : String := if a = "" then b else a

/-- JS `a || b` where `a` is a nullable string. -/
def jsOrOpt (a : Option String) (b : String) : String :=
  match a with
  | some s => jsOr s b
  | none => b

/-- Does `needle` occur as a leading segment of `hay` (character lists)? -/
def leadsWith : List Char → List Char → Bool
  | [], _ => true
  | _ :: _, [] => false
  | n :: ns, h :: hs => n == h && leadsWith ns hs

/-- Helper for substring search: does `needle` occur anywhere in `hay`? -/
def hasSubAux (needle : List Char) : List Char → Bool
  | [] => needle.isEmpty
  | h :: hs => leadsWith needle (h :: hs) || hasSubAux needle hs

/-- JS `hay.includes(needle)`. -/
def strContains (hay needle : String) : Bool := hasSubAux needle.data hay.data

/-- JS `s.startsWith(pre)`. -/
def startsWithStr (s pre : String) : Bool := leadsWith pre.data s.data

/-- JS `s.endsWith(suf)`. -/
def endsWithStr (s suf : String) : Bool := leadsWith suf.data.reverse s.data.reverse

/-- Replace each maximal run of characters satisfying `p` by the single
character `sep` (JS `replace of a one-class-plus regex with sep`).
The boolean argument records whether the previous character was in a run. -/
def collapseRunsAux (p : Char → Bool) (sep : Char) : Bool → List Char → List Char
  | _, [] => []
  | inRun, c :: rest =>
    if p c then
      if inRun then collapseRunsAux p sep true rest
      else sep :: collapseRunsAux p sep true rest
    else c :: collapseRunsAux p sep false rest

/-- Replace each maximal run of characters satisfying `p` by `sep`. -/
def collapseRunsTo (p : Char → Bool) (sep : Char) (l : List Char) : List Char :=
  collapseRunsAux p sep false l

/-- JS `s.trim()`: drop leading and trailing whitespace. Structurally
recursive so that the kernel can evaluate it. -/
def trimStr (s : String) : String :=
  String.mk (((s.data.dropWhile Char.isWhitespace).reverse.dropWhile
    Char.isWhitespace).reverse)

/-- JS `s.toLowerCase()` (ASCII range, which covers the data involved).
Structurally recursive so that the kernel can evaluate it. -/
def lowerStr (s : String) : String := String.mk (s.data.map Char.toLower)

/-- Zero-width characters stripped by normalizeTagKey:
U+200B through U+200D and the BOM U+FEFF. -/
def isZeroWidth (c : Char) : Bool :=
  (0x200B ≤ c.val.toNat && c.val.toNat ≤ 0x200D) || c.val.toNat == 0xFEFF

/-- JS `s.replace of NBSP with a plain space` (U+00A0 to U+0020). -/
def nbspToSpace (s : String) : String :=
  String.mk (s.data.map (fun c => if c = '\u00A0' then ' ' else c))

/-- JS `s.replace of every underscore with a space`. -/
def underscoresToSpaces (s : String) : String :=
  String.mk (s.data.map (fun c => if c = '_' then ' ' else c))

/-- JS `s.replace of every whitespace run with an underscore`. -/
def spacesToUnderscores (s : String) : String :=
  String.mk (collapseRunsTo Char.isWhitespace '_' s.data)

/-- normalizeTagKey from Header.tsx: replace NBSP by space, strip zero-width
characters and the BOM, trim, lower-case, collapse whitespace runs to single
spaces. -/
def normalizeTagKey (input : String) : String :=
  let s1 := input.data.map (fun c => if c = '\u00A0' then ' ' else c)
  let s2 := s1.filter (fun c => !(isZeroWidth c))
  let s3 := lowerStr (trimStr (String.mk s2))
  String.mk (collapseRunsTo Char.isWhitespace ' ' s3.data)

/-- A Place record, as declared by the `Place` type in Header.tsx.
Nullable fields become Option; JS numbers become rationals. -/
structure Place where
  id : Option String
  category : String
  organization : String
  office : String
  address : String
  email : Option String
  website : Option String
  place_id : Option String
  opening_hours : Option String
  lat : Option ℚ
  lng : Option ℚ
  phone : Option String
  maps_url : Option String
  photo_ref : Option String
  service_tags : List String
deriving DecidableEq, Repr

/-- A TagGuide record, as declared by the `TagGuide` type in Header.tsx. -/
structure TagGuide where
  tag : String
  display_name : String
  description : Option String
  example_keywords : Option String
deriving DecidableEq, Repr

/-- A convenient all-empty Place for building concrete examples. -/
def basePlace : Place :=
  { id := none
  , category := ""
  , organization := ""
  , office := ""
  , address := ""
  , email := none
  , website := none
  , place_id := none
  , opening_hours := none
  , lat := none
  , lng := none
  , phone := none
  , maps_url := none
  , photo_ref := none
  , service_tags := [] }

/-- safeNum from Header.tsx on a `number or null` input. In JS,
`typeof null` is not "number", so `Number(null) = 0` is taken, and
`Number.isFinite 0` holds: a null input comes back as 0, not null.
(NaN and infinities cannot occur in JSON data and have no rational
counterpart, so the null-returning branch is unreachable here, exactly
as it is unreachable in the source for `number or null` inputs.) -/
def safeNum (n : Option ℚ) : Option ℚ :=
  match n with
  | some v => some v
  | none => some 0

/-- placeKey from Header.tsx: the Place Identity Key. -/
def placeKey (p : Place) : String :=
  let pid := trimStr (jsOrOpt p.id (jsOrOpt p.place_id ""))
  let org := trimStr p.organization
  let office := trimStr p.office
  let addr := trimStr p.address
  if pid ≠ "" then pid ++ "__" ++ (jsOr office org) ++ "__" ++ addr
  else org ++ "__" ++ office ++ "__" ++ addr

/-- Normalized category string shared by categoryColor and categoryIcon:
lower-case, trim, replace whitespace-or-hyphen runs by an underscore,
then collapse underscore runs. -/
def normCat (category : String) : String :=
  String.mk (collapseRunsTo (fun c => c = '_') '_'
    (collapseRunsTo (fun c => Char.isWhitespace c || c = '-') '_'
      (trimStr (lowerStr category)).data))

/-- The library rule of categoryColor and categoryIcon. -/
def isLibraryCat (c : String) : Bool := strContains c "library"

/-- The food-access rule of categoryColor and categoryIcon. -/
def isFoodCat (c : String) : Bool :=
  strContains c "food_access" || c == "food" ||
    startsWithStr c "food_" || endsWithStr c "_food"

/-- The government rule of categoryColor and categoryIcon. -/
def isGovCat (c : String) : Bool :=
  strContains c "government" || strContains c "city" || strContains c "state"

/-- The education rule of categoryColor and categoryIcon. -/
def isEduCat (c : String) : Bool :=
  strContains c "education" || strContains c "adult"

/-- The community rule of categoryColor and categoryIcon. -/
def isCommunityCat (c : String) : Bool :=
  strContains c "community" || strContains c "nonprofit" || strContains c "organization"

/-- categoryColor from Header.tsx. -/
def categoryColor (category : String) : String :=
  let c := normCat category
  if isLibraryCat c then "#2CA3E0"
  else if isFoodCat c then "#2563EB"
  else if isGovCat c then "#99c24d"
  else if isEduCat c then "#E11D48"
  else if isCommunityCat c then "#0F766E"
  else "#111827"

/-- categoryIcon from Header.tsx. -/
def categoryIcon (category : String) : String :=
  let c := normCat category
  if isLibraryCat c then "📚"
  else if isFoodCat c then "🥫"
  else if isGovCat c then "🏛️"
  else if isEduCat c then "🎓"
  else if isCommunityCat c then "🤝"
  else "📍"

/-- A JS Map is modelled as an association list; `set` prepends, so the most
recent binding for a key shadows older ones (last-write-wins). -/
def mapSet (m : List (String × String)) (k v : String) : List (String × String) :=
  (k, v) :: m

/-- Lookup in the association-list model of a JS Map: first (most recent)
binding wins. -/
def mapGet : List (String × String) → String → Option String
  | [], _ => none
  | (k', v) :: m, k => if k = k' then some v else mapGet m k

/-- Apply a list of `set` calls to a map. -/
def applyBinds (m : List (String × String)) (bs : List (String × String)) :
    List (String × String) :=
  bs.foldl (fun acc kv => mapSet acc kv.1 kv.2) m

/-- Build a lookup table by iterating over the taxonomy entries in order,
performing the `set` calls produced by `binds` for each entry. -/
def buildTable (binds : TagGuide → List (String × String))
    (tagsData : List TagGuide) : List (String × String) :=
  tagsData.foldl (fun m tg => applyBinds m (binds tg)) []

/-- The `tagLowerToTag.set` calls made for one taxonomy entry in the load
function of Header.tsx: the normalized identifier itself and its
underscores-to-spaces variant, both mapped to the trimmed canonical
identifier. Entries whose trimmed identifier is empty are skipped. -/
def tagBinds (tg : TagGuide) : List (String × String) :=
  let canonical := trimStr tg.tag
  if canonical = "" then []
  else
    [ (normalizeTagKey canonical, canonical)
    , (normalizeTagKey (underscoresToSpaces canonical), canonical) ]

/-- The `displayToTag.set` calls made for one taxonomy entry: the normalized
display name, its underscores-to-spaces variant and its
whitespace-to-underscores variant, all mapped to the trimmed canonical
identifier. Skipped when the trimmed identifier is empty (the loop
continues early) or when the display name is falsy. -/
def displayBinds (tg : TagGuide) : List (String × String) :=
  let canonical := trimStr tg.tag
  if canonical = "" then []
  else if tg.display_name = "" then []
  else
    let dn := trimStr tg.display_name
    [ (normalizeTagKey dn, canonical)
    , (normalizeTagKey (underscoresToSpaces dn), canonical)
    , (normalizeTagKey (spacesToUnderscores dn), canonical) ]

/-- The tagLowerToTag table of Header.tsx. -/
def buildTagLowerToTag (tagsData : List TagGuide) : List (String × String) :=
  buildTable tagBinds tagsData

/-- The displayToTag table of Header.tsx. -/
def buildDisplayToTag (tagsData : List TagGuide) : List (String × String) :=
  buildTable displayBinds tagsData

/-- canonicalizeTag from Header.tsx: normalize the raw tag, look it up in the
display-name table first, then the identifier table, and otherwise fall
back to the normalized key with whitespace replaced by underscores.
An input whose normalized key is empty canonicalizes to the empty string
(it is dropped by the subsequent truthiness filter). -/
def canonicalizeTag (tagsData : List TagGuide) (raw : String) : String :=
  let cleaned := nbspToSpace raw
  let key := normalizeTagKey cleaned
  if key = "" then ""
  else
    jsOrOpt (mapGet (buildDisplayToTag tagsData) key)
      (jsOrOpt (mapGet (buildTagLowerToTag tagsData) key)
        (spacesToUnderscores key))

/-- The per-place tag canonicalization step of the load function:
map every service tag through canonicalizeTag and drop falsy results. -/
def canonicalizePlaces (tagsData : List TagGuide) (placesData : List Place) :
    List Place :=
  placesData.map (fun p =>
    { p with service_tags :=
        (p.service_tags.map (canonicalizeTag tagsData)).filter (fun t => t ≠ "") })

/-- The component state touched by the load effect of Header.tsx. -/
structure AppState where
  loading : Bool
  places : List Place
  tagGuide : List TagGuide
deriving Repr

/-- The initial component state: loading is true, both collections empty. -/
def initialAppState : AppState :=
  { loading := true, places := [], tagGuide := [] }

/-- One run of the load effect. The effect first sets loading to true; on a
successful fetch it stores the canonicalized places and the tag guide and
clears loading; when any awaited step throws, the catch handler logs the
error and clears loading, leaving places and tagGuide untouched. -/
def loadStep (s : AppState) (result : Except String (List Place × List TagGuide)) :
    AppState :=
  let started : AppState := { s with loading := true }
  match result with
  | Except.ok (placesData, tagsData) =>
      { loading := false
      , places := canonicalizePlaces tagsData placesData
      , tagGuide := tagsData }
  | Except.error _ => { started with loading := false }

/-- The text predicate of the filtered memo in Header.tsx. -/
def matchText (query : String) (p : Place) : Bool :=
  let q := lowerStr (trimStr query)
  let hay := lowerStr (p.organization ++ " " ++ p.office)
  q == "" || strContains hay q

/-- The tag predicate of the filtered memo in Header.tsx: AND semantics. -/
def matchTags (selectedTags : List String) (p : Place) : Bool :=
  selectedTags.isEmpty || selectedTags.all (fun t => p.service_tags.contains t)

/-- The filtered memo of Header.tsx. -/
def filtered (places : List Place) (query : String) (selectedTags : List String) :
    List Place :=
  places.filter (fun p => matchText query p && matchTags selectedTags p)

/-- Body of the filteredUnique memo: one pass over the filtered sequence
keeping the first occurrence of each Place Identity Key. The `seen` set of
the source is modelled as a list of keys. -/
def filteredUniqueAux : List String → List Place → List Place
  | _, [] => []
  | seen, p :: rest =>
    if placeKey p ∈ seen then filteredUniqueAux seen rest
    else p :: filteredUniqueAux (placeKey p :: seen) rest

/-- The filteredUnique memo of Header.tsx. -/
def filteredUnique (l : List Place) : List Place := filteredUniqueAux [] l

/-- Viewport bounds as reported by the map surface. -/
structure Bounds where
  west : ℚ
  south : ℚ
  east : ℚ
  north : ℚ
deriving DecidableEq, Repr

/-- The view mode of the dashboard. -/
inductive ViewMode where
  | map
  | list
deriving DecidableEq, Repr

/-- The per-place viewport test of the placesInView memo: run lat and lng
through safeNum, reject when either is null, and otherwise require the
coordinates to lie within the closed bounds rectangle. -/
def inBounds (b : Bounds) (p : Place) : Bool :=
  match safeNum p.lat, safeNum p.lng with
  | some lat, some lng =>
      lng ≥ b.west && lng ≤ b.east && lat ≥ b.south && lat ≤ b.north
  | _, _ => false

/-- The placesInView memo of Header.tsx: viewport filtering applies only in
map mode with known bounds; otherwise the deduplicated filtered sequence
is returned unchanged. -/
def placesInView (viewMode : ViewMode) (mapBounds : Option Bounds)
    (fu : List Place) : List Place :=
  match mapBounds with
  | none => fu
  | some b =>
      if viewMode = ViewMode.map then fu.filter (fun p => inBounds b p)
      else fu

/-- The sidebarWidth initializer of Header.tsx. Its input is the persisted
preference after JS Number conversion: `none` models NaN (a non-numeric
stored string); an absent key yields `Number(null) = 0`, i.e. `some 0`.
A finite value inside the closed range 260 to 520 is kept; anything else
falls back to 360. -/
def initSidebarWidth (stored : Option ℚ) : ℚ :=
  match stored with
  | some v => if 260 ≤ v ∧ v ≤ 520 then v else 360
  | none => 360

/-- A pointermove event during a sidebar drag: the width at drag start, the
pointer x at drag start, and the current pointer x. -/
structure DragEvent where
  startWidth : ℚ
  startX : ℚ
  clientX : ℚ
deriving DecidableEq, Repr

/-- The width computed by the onMove handler of Header.tsx:
the drag delta applied to the start width, clamped to 260 to 520. -/
def onMoveWidth (e : DragEvent) : ℚ :=
  max 260 (min 520 (e.startWidth + (e.clientX - e.startX)))

/-- Sidebar width state together with the persisted copy: the effect keyed on
sidebarWidth writes the current width back to storage on every change. -/
structure SidebarState where
  width : ℚ
  stored : Option ℚ
deriving DecidableEq, Repr

/-- Component mount: initialize the width from the persisted preference and
run the persistence effect once. -/
def sidebarInit (persisted : Option ℚ) : SidebarState :=
  let w := initSidebarWidth persisted
  { width := w, stored := some w }

/-- One drag update: clamp the new width and persist it. The previous state
is not consulted; the handler works from the drag-start snapshot. -/
def sidebarStep (_prev : SidebarState) (e : DragEvent) : SidebarState :=
  let w := onMoveWidth e
  { width := w, stored := some w }

/-- The sidebar width state after mounting with a persisted preference and
processing a sequence of drag events. -/
def sidebarRun (persisted : Option ℚ) (events : List DragEvent) : SidebarState :=
  events.foldl sidebarStep (sidebarInit persisted)

/-- Digits-value helper for jsParseInt: the value of the maximal leading
digit run, or none when there is no leading digit. -/
def leadDigits (cs : List Char) : Option Nat :=
  let ds := cs.takeWhile Char.isDigit
  if ds = [] then none
  else some (ds.foldl (fun a c => a * 10 + (c.val.toNat - 48)) 0)

/-- JS `Number.parseInt(s, 10)`: skip leading whitespace, accept an optional
sign, then read the maximal leading digit run; NaN (here none) when no
digit follows. The unbounded Int models the mathematical value parsed. -/
def jsParseInt (s : String) : Option Int :=
  match s.data.dropWhile Char.isWhitespace with
  | '-' :: rest => (leadDigits rest).map (fun n => -(n : Int))
  | '+' :: rest => (leadDigits rest).map (fun n => (n : Int))
  | rest => (leadDigits rest).map (fun n => (n : Int))

/-- The effective image width of the photo proxy GET handler
(src/app/api/photo/route.ts): the w query parameter (or "400" when it is
absent or empty, since the empty string is falsy under JS `||`), parsed
with parseInt, clamped to the closed range 50 to 1600 when it parses, and
400 otherwise. -/
def effectiveWidth (wq : Option String) : Int :=
  let wParam := jsOrOpt wq "400"
  match jsParseInt wParam with
  | some n => min 1600 (max 50 n)
  | none => 400

/-- A place carrying the canonical tags A, B, C of the tag-AND scenario. -/
def taggedABC : Place := { basePlace with service_tags := ["A", "B", "C"] }

/-- First of two rows sharing one Place Identity Key (same id, office,
address; different organization, which the key ignores when the office
is nonempty). -/
def dupRowA : Place :=
  { basePlace with
      id := some "ChIJ123"
      organization := "Org1"
      office := "Room A"
      address := "1 Main St" }

/-- Second row with the same Place Identity Key as dupRowA. -/
def dupRowB : Place := { dupRowA with organization := "Org2" }

/-- A record with a blank office name: placeKey falls back to the
organization name as the middle key component. -/
def officeCexA : Place :=
  { basePlace with
      id := some "ChIJ123"
      organization := "Org"
      office := ""
      address := "1 Main St" }

/-- Same record but with the office name set to the organization name:
a different office string, yet the same key as officeCexA. -/
def officeCexB : Place := { officeCexA with office := "Org" }

/-- Two offices sharing an upstream id and address. -/
def offRoomA : Place :=
  { basePlace with
      id := some "ChIJ123"
      organization := "Org"
      office := "Room A"
      address := "1 Main St" }

/-- As offRoomA but in office Room B. -/
def offRoomB : Place := { offRoomA with office := "Room B" }

/-- A taxonomy in which the display name of the entry food normalizes
(whitespace to underscores) to the identifier of the entry food_access. -/
def collisionGuide : List TagGuide :=
  [ { tag := "food", display_name := "Food Access"
    , description := none, example_keywords := none }
  , { tag := "food_access", display_name := "Food Pantries"
    , description := none, example_keywords := none } ]

/-- A one-entry taxonomy with no cross-entry key collisions. -/
def esolGuide : List TagGuide :=
  [ { tag := "esol_classes", display_name := "ESOL Classes"
    , description := none, example_keywords := none } ]

/-- The viewport bounds of the spec scenario. -/
def demoBounds : Bounds := { west := -71.1, south := 42.3, east := -71, north := 42.4 }

/-- The in-view place of the spec scenario. -/
def inViewPlace : Place := { basePlace with lat := some 42.35, lng := some (-71.05) }

/-- The out-of-view place of the spec scenario. -/
def outViewPlace : Place := { basePlace with lat := some 42.5, lng := some (-71.05) }

/-- A place with no latitude: safeNum turns the null into 0. -/
def noLatPlace : Place := { basePlace with lat := none, lng := some 0 }

/-- Bounds around the origin, exposing the safeNum null-to-zero slip. -/
def originBounds : Bounds := { west := -1, south := -1, east := 1, north := 1 }

/-- Claim C2: a place passes the tag predicate iff the selected-tag set is
empty or every selected tag is among its service tags (AND semantics);
in particular a place tagged A, B, C matches the selection A, B and does
not match the selection A, D. -/
theorem matchTags_and_semantics :
    (∀ (S : List String) (p : Place),
      matchTags S p = true ↔ S = [] ∨ ∀ t ∈ S, t ∈ p.service_tags) ∧
    matchTags ["A", "B"] taggedABC = true ∧
    matchTags ["A", "D"] taggedABC = false := by
  refine ⟨?_, by decide, by decide⟩
  intro S p
  simp [matchTags, List.isEmpty_iff, List.all_eq_true]

/-- Claim C5: whenever the view mode is list, or map bounds are not yet
known, the in-view sequence equals the deduplicated filtered sequence,
whatever the bounds value is. -/
theorem placesInView_noop_in_list_mode (vm : ViewMode) (b : Option Bounds)
    (fu : List Place) (h : vm = ViewMode.list ∨ b = none) :
    placesInView vm b fu = fu := by
  rcases h with h | h
  · subst h; cases b <;> simp [placesInView]
  · subst h; rfl

/-- Claim C5 witness: list mode with concrete bounds is a no-op. -/
theorem placesInView_noop_in_list_mode_witness :
    placesInView ViewMode.list (some demoBounds) [inViewPlace, outViewPlace]
      = [inViewPlace, outViewPlace] :=
  placesInView_noop_in_list_mode ViewMode.list (some demoBounds)
    [inViewPlace, outViewPlace] (Or.inl rfl)

/-- Claim C6, evaluated at the failing input: a place whose latitude is
null is treated by the viewport test as sitting at latitude 0, because
safeNum converts null via Number(null) = 0; with bounds around the origin
it counts as in view, contradicting the only-if direction of the claim.
The positive half of the spec scenario does hold. -/
theorem inBounds_null_latitude_slip :
    noLatPlace.lat = none ∧
    inBounds originBounds noLatPlace = true ∧
    placesInView ViewMode.map (some originBounds) [noLatPlace] = [noLatPlace] ∧
    inBounds demoBounds inViewPlace = true ∧
    inBounds demoBounds outViewPlace = false := by
  refine ⟨rfl, ?_, ?_, ?_, ?_⟩ <;>
    simp [inBounds, safeNum, placesInView, demoBounds, originBounds,
      noLatPlace, inViewPlace, outViewPlace, basePlace] <;> norm_num

/-- Claim C8 counterexample: after a failed initial fetch, the loading flag
is cleared by the catch handler, not left set as the claim states. -/
theorem loadStep_failure_clears_loading_cex :
    (loadStep initialAppState (Except.error "network failure")).loading = false := rfl

/-- Claim C8 (amended): when the initial places and tags fetch fails, the
resulting state is the prior state with the loading flag cleared: the
failure is only logged, and no partially loaded dataset is stored (places
and tag guide keep their prior, initially empty, values). -/
theorem loadStep_failure_no_partial_data (s : AppState) (e : String) :
    loadStep s (Except.error e) = { s with loading := false } := rfl

/-- Claim C10: the photo proxy forwards width 400 when the w parameter is
absent (or empty, which JS treats as absent) or does not parse, and
otherwise the parsed value clamped into the closed range 50 to 1600;
the effective width always lies in that range. -/
theorem effectiveWidth_spec :
    effectiveWidth none = 400 ∧
    effectiveWidth (some "") = 400 ∧
    (∀ s : String, s ≠ "" → jsParseInt s = none → effectiveWidth (some s) = 400) ∧
    (∀ (s : String) (n : Int), s ≠ "" → jsParseInt s = some n →
      effectiveWidth (some s) = min 1600 (max 50 n)) ∧
    (∀ wq : Option String, 50 ≤ effectiveWidth wq ∧ effectiveWidth wq ≤ 1600) := by
  refine ⟨rfl, rfl, ?_, ?_, ?_⟩
  · intro s hne h
    simp [effectiveWidth, jsOrOpt, jsOr, hne, h]
  · intro s n hne h
    simp [effectiveWidth, jsOrOpt, jsOr, hne, h]
  · intro wq
    cases h : jsParseInt (jsOrOpt wq "400") with
    | none => simp [effectiveWidth, h]
    | some n =>
        refine ⟨?_, ?_⟩
        · simp only [effectiveWidth, h]
          exact le_min (by norm_num) (le_max_left _ _)
        · simp only [effectiveWidth, h]
          exact min_le_left _ _

/-- The category rules are mutually exclusive by priority; this lemma packs
the if-chain shared by categoryColor and categoryIcon. -/
theorem categoryColor_eq_of_rules (cat : String)
    (hlib : isLibraryCat (normCat cat) = false)
    (hfood : isFoodCat (normCat cat) = false)
    (hgov : isGovCat (normCat cat) = false)
    (hedu : isEduCat (normCat cat) = false)
    (hcom : isCommunityCat (normCat cat) = false) :
    categoryColor cat = "#111827" ∧ categoryIcon cat = "📍" := by
  constructor <;> simp [categoryColor, categoryIcon, hlib, hfood, hgov, hedu, hcom]

/-- Claim C7: the color and icon maps are invariant under case and separator
variation of the category (the three food spellings agree), and the fuzzy
rules fire in priority order: library, then food, then government or city
or state, then education or adult, then community or nonprofit or
organization, then the neutral default. -/
theorem categoryColorIcon_rules :
    (categoryColor "Food-Access" = categoryColor "food_access" ∧
     categoryColor "food_access" = categoryColor "Food Access" ∧
     categoryIcon "Food-Access" = categoryIcon "food_access" ∧
     categoryIcon "food_access" = categoryIcon "Food Access") ∧
    (∀ cat, isLibraryCat (normCat cat) = true →
      categoryColor cat = "#2CA3E0" ∧ categoryIcon cat = "📚") ∧
    (∀ cat, isLibraryCat (normCat cat) = false →
      isFoodCat (normCat cat) = true →
      categoryColor cat = "#2563EB" ∧ categoryIcon cat = "🥫") ∧
    (∀ cat, isLibraryCat (normCat cat) = false →
      isFoodCat (normCat cat) = false → isGovCat (normCat cat) = true →
      categoryColor cat = "#99c24d" ∧ categoryIcon cat = "🏛️") ∧
    (∀ cat, isLibraryCat (normCat cat) = false →
      isFoodCat (normCat cat) = false → isGovCat (normCat cat) = false →
      isEduCat (normCat cat) = true →
      categoryColor cat = "#E11D48" ∧ categoryIcon cat = "🎓") ∧
    (∀ cat, isLibraryCat (normCat cat) = false →
      isFoodCat (normCat cat) = false → isGovCat (normCat cat) = false →
      isEduCat (normCat cat) = false → isCommunityCat (normCat cat) = true →
      categoryColor cat = "#0F766E" ∧ categoryIcon cat = "🤝") ∧
    (∀ cat, isLibraryCat (normCat cat) = false →
      isFoodCat (normCat cat) = false → isGovCat (normCat cat) = false →
      isEduCat (normCat cat) = false → isCommunityCat (normCat cat) = false →
      categoryColor cat = "#111827" ∧ categoryIcon cat = "📍") := by
  refine ⟨⟨by decide, by decide, by decide, by decide⟩, ?_, ?_, ?_, ?_, ?_, ?_⟩
  · intro cat h1
    constructor <;> simp [categoryColor, categoryIcon, h1]
  · intro cat h1 h2
    constructor <;> simp [categoryColor, categoryIcon, h1, h2]
  · intro cat h1 h2 h3
    constructor <;> simp [categoryColor, categoryIcon, h1, h2, h3]
  · intro cat h1 h2 h3 h4
    constructor <;> simp [categoryColor, categoryIcon, h1, h2, h3, h4]
  · intro cat h1 h2 h3 h4 h5
    constructor <;> simp [categoryColor, categoryIcon, h1, h2, h3, h4, h5]
  · intro cat h1 h2 h3 h4 h5
    exact categoryColor_eq_of_rules cat h1 h2 h3 h4 h5

/-- Claim C7 witness: each rule applied at a concrete category string. -/
theorem categoryColorIcon_rules_witness :
    (categoryColor "Public Library" = "#2CA3E0" ∧
     categoryIcon "Public Library" = "📚") ∧
    (categoryColor "food pantry" = "#2563EB" ∧ categoryIcon "food pantry" = "🥫") ∧
    (categoryColor "City Services" = "#99c24d" ∧ categoryIcon "City Services" = "🏛️") ∧
    (categoryColor "Adult Education" = "#E11D48" ∧
     categoryIcon "Adult Education" = "🎓") ∧
    (categoryColor "Nonprofit" = "#0F766E" ∧ categoryIcon "Nonprofit" = "🤝") ∧
    (categoryColor "Health" = "#111827" ∧ categoryIcon "Health" = "📍") :=
  ⟨categoryColorIcon_rules.2.1 "Public Library" (by decide),
   categoryColorIcon_rules.2.2.1 "food pantry" (by decide) (by decide),
   categoryColorIcon_rules.2.2.2.1 "City Services" (by decide) (by decide) (by decide),
   categoryColorIcon_rules.2.2.2.2.1 "Adult Education" (by decide) (by decide)
     (by decide) (by decide),
   categoryColorIcon_rules.2.2.2.2.2.1 "Nonprofit" (by decide) (by decide)
     (by decide) (by decide) (by decide),
   categoryColorIcon_rules.2.2.2.2.2.2 "Health" (by decide) (by decide)
     (by decide) (by decide) (by decide)⟩

/-- The sidebar invariant: width clamped to the fixed range and persisted. -/
def sidebarInv (s : SidebarState) : Prop :=
  260 ≤ s.width ∧ s.width ≤ 520 ∧ s.stored = some s.width

/-- The initializer establishes the sidebar invariant. -/
theorem sidebarInit_inv (p : Option ℚ) : sidebarInv (sidebarInit p) := by
  cases p with
  | none => exact ⟨by norm_num [sidebarInit, initSidebarWidth],
      by norm_num [sidebarInit, initSidebarWidth], rfl⟩
  | some v =>
      by_cases h : 260 ≤ v ∧ v ≤ 520
      · exact ⟨by simp [sidebarInit, initSidebarWidth, h, h.1],
          by simp [sidebarInit, initSidebarWidth, h, h.2], rfl⟩
      · exact ⟨by simp [sidebarInit, initSidebarWidth, h]; norm_num,
          by simp [sidebarInit, initSidebarWidth, h]; norm_num, rfl⟩

/-- Each drag update preserves the sidebar invariant. -/
theorem sidebarStep_inv (s : SidebarState) (e : DragEvent) :
    sidebarInv (sidebarStep s e) := by
  refine ⟨le_max_left _ _, ?_, rfl⟩
  exact max_le (by norm_num) (min_le_left _ _)

/-- Folding drag events preserves the sidebar invariant. -/
theorem sidebarFold_inv (events : List DragEvent) (s : SidebarState)
    (h : sidebarInv s) : sidebarInv (events.foldl sidebarStep s) := by
  induction events generalizing s with
  | nil => exact h
  | cons e rest ih => exact ih _ (sidebarStep_inv s e)

/-- Claim C9: after startup with any persisted value and any sequence of drag
updates, the sidebar width lies in the closed range 260 to 520 and is
written back to the persisted preference; a persisted value that is
missing, non-numeric (none models NaN) or out of range falls back to 360,
and every drag update clamps into the range. -/
theorem sidebarWidth_clamped (persisted : Option ℚ) (events : List DragEvent) :
    (260 ≤ (sidebarRun persisted events).width ∧
     (sidebarRun persisted events).width ≤ 520 ∧
     (sidebarRun persisted events).stored = some (sidebarRun persisted events).width) ∧
    initSidebarWidth none = 360 ∧
    (∀ v : ℚ, ¬(260 ≤ v ∧ v ≤ 520) → initSidebarWidth (some v) = 360) := by
  refine ⟨sidebarFold_inv events (sidebarInit persisted) (sidebarInit_inv persisted),
    rfl, ?_⟩
  intro v hv
  simp [initSidebarWidth, hv]

/-- Claim C9 witness: a persisted 1000 falls back to 360, and a drag far to
the right is clamped at 520 and persisted. -/
theorem sidebarWidth_clamped_witness :
    260 ≤ (sidebarRun (some 1000) [{ startWidth := 360, startX := 0, clientX := 9999 }]).width ∧
    (sidebarRun (some 1000) [{ startWidth := 360, startX := 0, clientX := 9999 }]).width ≤ 520 ∧
    initSidebarWidth (some 1000) = 360 := by
  have h := sidebarWidth_clamped (some 1000)
    [{ startWidth := 360, startX := 0, clientX := 9999 }]
  exact ⟨h.1.1, h.1.2.1, h.2.2 1000 (by norm_num)⟩

/-- Claim C10 witness: a non-parsing value falls back to 400 and a large
value is clamped to 1600. -/
theorem effectiveWidth_spec_witness :
    effectiveWidth (some "abc") = 400 ∧
    effectiveWidth (some "1700") = min 1600 (max 50 1700) ∧
    50 ≤ effectiveWidth (some "7") ∧ effectiveWidth (some "7") ≤ 1600 :=
  ⟨effectiveWidth_spec.2.2.1 "abc" (by decide) (by decide),
   effectiveWidth_spec.2.2.2.1 "1700" 1700 (by decide) (by decide),
   (effectiveWidth_spec.2.2.2.2 (some "7")).1,
   (effectiveWidth_spec.2.2.2.2 (some "7")).2⟩

/-- The deduplication pass returns a subsequence of its input. -/
theorem filteredUniqueAux_sublist (seen : List String) (l : List Place) :
    List.Sublist (filteredUniqueAux seen l) l := by
  induction l generalizing seen with
  | nil => simp [filteredUniqueAux]
  | cons q rest ih =>
    by_cases h : placeKey q ∈ seen
    · simp only [filteredUniqueAux]
      rw [if_pos h]
      exact List.Sublist.cons q (ih seen)
    · simp only [filteredUniqueAux]
      rw [if_neg h]
      exact List.Sublist.cons₂ q (ih _)

/-- Keys of entries surviving the deduplication pass avoid the seen set. -/
theorem filteredUniqueAux_key_notin (seen : List String) (l : List Place)
    (p : Place) (hp : p ∈ filteredUniqueAux seen l) : placeKey p ∉ seen := by
  induction l generalizing seen with
  | nil => simp [filteredUniqueAux] at hp
  | cons q rest ih =>
    by_cases h : placeKey q ∈ seen
    · rw [filteredUniqueAux, if_pos h] at hp
      exact ih seen hp
    · rw [filteredUniqueAux, if_neg h] at hp
      rcases List.mem_cons.mp hp with rfl | hp2
      · exact h
      · have h2 := ih _ hp2
        exact fun hc => h2 (List.mem_cons_of_mem _ hc)

/-- The deduplicated sequence carries pairwise distinct keys. -/
theorem filteredUniqueAux_keys_nodup (seen : List String) (l : List Place) :
    ((filteredUniqueAux seen l).map placeKey).Nodup := by
  induction l generalizing seen with
  | nil => simp [filteredUniqueAux]
  | cons q rest ih =>
    by_cases h : placeKey q ∈ seen
    · rw [filteredUniqueAux, if_pos h]
      exact ih seen
    · rw [filteredUniqueAux, if_neg h]
      rw [List.map_cons]
      refine List.nodup_cons.mpr ⟨?_, ih _⟩
      intro hmem
      rcases List.mem_map.mp hmem with ⟨p, hp, hkey⟩
      have hni := filteredUniqueAux_key_notin _ _ p hp
      exact hni (by rw [hkey]; exact List.mem_cons_self _ _)

/-- Every entry kept by the deduplication pass is the first entry of the
input carrying its key. -/
theorem filteredUniqueAux_find_first (seen : List String) (l : List Place)
    (p : Place) (hp : p ∈ filteredUniqueAux seen l) :
    l.find? (fun x => placeKey x == placeKey p) = some p := by
  induction l generalizing seen with
  | nil => simp [filteredUniqueAux] at hp
  | cons q rest ih =>
    by_cases h : placeKey q ∈ seen
    · rw [filteredUniqueAux, if_pos h] at hp
      have hne : placeKey p ≠ placeKey q :=
        fun he => (filteredUniqueAux_key_notin seen rest p hp) (he ▸ h)
      rw [List.find?_cons_of_neg rest (by simp [Ne.symm hne])]
      exact ih seen hp
    · rw [filteredUniqueAux, if_neg h] at hp
      rcases List.mem_cons.mp hp with rfl | hp2
      · exact List.find?_cons_of_pos rest (by simp)
      · have hni := filteredUniqueAux_key_notin _ _ p hp2
        have hne : placeKey p ≠ placeKey q :=
          fun he => hni (by rw [he]; exact List.mem_cons_self _ _)
        rw [List.find?_cons_of_neg rest (by simp [Ne.symm hne])]
        exact ih _ hp2

/-- Every input entry whose key is not yet seen has a representative with
the same key in the deduplicated sequence. -/
theorem filteredUniqueAux_covers (seen : List String) (l : List Place)
    (p : Place) (hp : p ∈ l) (hns : placeKey p ∉ seen) :
    ∃ q ∈ filteredUniqueAux seen l, placeKey q = placeKey p := by
  induction l generalizing seen with
  | nil => simp at hp
  | cons q rest ih =>
    by_cases h : placeKey q ∈ seen
    · rw [filteredUniqueAux, if_pos h]
      rcases List.mem_cons.mp hp with rfl | hp2
      · exact absurd h hns
      · exact ih seen hp2 hns
    · rw [filteredUniqueAux, if_neg h]
      by_cases hk : placeKey p = placeKey q
      · exact ⟨q, List.mem_cons_self _ _, hk.symm⟩
      · rcases List.mem_cons.mp hp with rfl | hp2
        · exact absurd rfl hk
        · have hns2 : placeKey p ∉ placeKey q :: seen := by
            intro hc
            rcases List.mem_cons.mp hc with hc1 | hc2
            · exact hk hc1
            · exact hns hc2
          rcases ih _ hp2 hns2 with ⟨r, hr, hrk⟩
          exact ⟨r, List.mem_cons_of_mem _ hr, hrk⟩

/-- Claim C1: for every place collection, applied query and selected-tag
set, the deduplicated filtered sequence has pairwise distinct Place
Identity Keys, is a subsequence of the filtered sequence (source order
preserved), keeps exactly the first occurrence of each key, and
represents every key of the filtered sequence. -/
theorem filteredUnique_dedup (places : List Place) (query : String)
    (tags : List String) :
    ((filteredUnique (filtered places query tags)).map placeKey).Nodup ∧
    List.Sublist (filteredUnique (filtered places query tags))
      (filtered places query tags) ∧
    (∀ p ∈ filteredUnique (filtered places query tags),
      (filtered places query tags).find? (fun x => placeKey x == placeKey p)
        = some p) ∧
    (∀ p ∈ filtered places query tags,
      ∃ q ∈ filteredUnique (filtered places query tags),
        placeKey q = placeKey p) := by
  refine ⟨filteredUniqueAux_keys_nodup [] _, filteredUniqueAux_sublist [] _,
    ?_, ?_⟩
  · intro p hp
    exact filteredUniqueAux_find_first [] _ p hp
  · intro p hp
    exact filteredUniqueAux_covers [] _ p hp (by simp)

/-- Claim C1 witness: two rows sharing one identity key collapse to the
first row, and the surviving keys are distinct. -/
theorem filteredUnique_dedup_witness :
    ((filteredUnique (filtered [dupRowA, dupRowB] "" [])).map placeKey).Nodup ∧
    (filtered [dupRowA, dupRowB] "" []).find?
      (fun x => placeKey x == placeKey dupRowA) = some dupRowA := by
  have h := filteredUnique_dedup [dupRowA, dupRowB] "" []
  exact ⟨h.1, h.2.2.1 dupRowA (by decide)⟩

/-- Strings agreeing around the middle component of a three-part key are
equal in that component: the shared prefix and suffix cancel. -/
theorem appendMidInj (s a b t : String)
    (h : s ++ "__" ++ a ++ "__" ++ t = s ++ "__" ++ b ++ "__" ++ t) : a = b := by
  have hd := congrArg String.data h
  simp only [String.data_append, List.append_assoc] at hd
  have h1 := List.append_cancel_left hd
  have h2 := List.append_cancel_left h1
  have h3 := List.append_cancel_right h2
  exact String.ext h3

/-- Claim C3 counterexample: officeCexA and officeCexB agree on upstream id,
organization and address and differ only in their office names, yet
produce one and the same key: the blank office of officeCexA falls back
to the organization name, which equals the office of officeCexB. -/
theorem placeKey_office_collision_cex :
    officeCexA.office ≠ officeCexB.office ∧
    officeCexA.id = officeCexB.id ∧
    officeCexA.organization = officeCexB.organization ∧
    officeCexA.address = officeCexB.address ∧
    placeKey officeCexA = placeKey officeCexB := by decide

/-- Claim C3 (amended): placeKey is a deterministic pure function, and two
records agreeing on upstream id, organization and address whose trimmed
office names are nonempty and distinct produce two different keys. (When
one trimmed office name is blank it is replaced by the organization name,
which can coincide with the office name of the other record.) -/
theorem placeKey_det_office_disambiguates :
    (∀ p : Place, placeKey p = placeKey p) ∧
    (∀ p1 p2 : Place,
      p1.id = p2.id → p1.place_id = p2.place_id →
      p1.organization = p2.organization → p1.address = p2.address →
      trimStr p1.office ≠ "" → trimStr p2.office ≠ "" →
      trimStr p1.office ≠ trimStr p2.office →
      placeKey p1 ≠ placeKey p2) := by
  refine ⟨fun p => rfl, ?_⟩
  intro p1 p2 hid hpid horg haddr h1 h2 hne heq
  simp only [placeKey] at heq
  rw [hid, hpid, horg, haddr] at heq
  by_cases hp : trimStr (jsOrOpt p2.id (jsOrOpt p2.place_id "")) = ""
  · simp only [hp, ne_eq, not_true_eq_false, if_false] at heq
    exact hne (appendMidInj _ _ _ _ heq)
  · simp only [ne_eq, hp, not_false_eq_true, if_true, jsOr, h1, h2,
      if_false] at heq
    exact hne (appendMidInj _ _ _ _ heq)

/-- Claim C3 witness: rooms A and B under one upstream id and address get
distinct keys. -/
theorem placeKey_det_office_disambiguates_witness :
    placeKey offRoomA ≠ placeKey offRoomB :=
  placeKey_det_office_disambiguates.2 offRoomA offRoomB rfl rfl rfl rfl
    (by decide) (by decide) (by decide)

/-- Looking up after a single `set`: the new binding shadows older ones. -/
theorem mapGet_mapSet (m : List (String × String)) (k k' v : String) :
    mapGet (mapSet m k' v) k = if k = k' then some v else mapGet m k := rfl

/-- If every `set` in a batch that touches key k writes v, a map already
answering v for k still answers v after the batch. -/
theorem mapGet_applyBinds_some (bs : List (String × String)) (k v : String) :
    ∀ m, (∀ kv ∈ bs, kv.1 = k → kv.2 = v) → mapGet m k = some v →
      mapGet (applyBinds m bs) k = some v := by
  induction bs with
  | nil => intro m _ hm; simpa [applyBinds] using hm
  | cons kv bs ih =>
    intro m hb hm
    have he : applyBinds m (kv :: bs) = applyBinds (mapSet m kv.1 kv.2) bs := rfl
    rw [he]
    apply ih _ (fun kv2 h2 hk => hb kv2 (List.mem_cons_of_mem _ h2) hk)
    rw [mapGet_mapSet]
    by_cases hk : k = kv.1
    · rw [if_pos hk, hb kv (List.mem_cons_self _ _) hk.symm]
    · rw [if_neg hk]; exact hm

/-- If every `set` in a batch that touches key k writes v, a map answering
nothing or v for k still does so after the batch. -/
theorem mapGet_applyBinds_disj (bs : List (String × String)) (k v : String) :
    ∀ m, (∀ kv ∈ bs, kv.1 = k → kv.2 = v) →
      mapGet m k = none ∨ mapGet m k = some v →
      mapGet (applyBinds m bs) k = none ∨ mapGet (applyBinds m bs) k = some v := by
  induction bs with
  | nil => intro m _ hm; simpa [applyBinds] using hm
  | cons kv bs ih =>
    intro m hb hm
    have he : applyBinds m (kv :: bs) = applyBinds (mapSet m kv.1 kv.2) bs := rfl
    rw [he]
    apply ih _ (fun kv2 h2 hk => hb kv2 (List.mem_cons_of_mem _ h2) hk)
    rw [mapGet_mapSet]
    by_cases hk : k = kv.1
    · rw [if_pos hk, hb kv (List.mem_cons_self _ _) hk.symm]
      exact Or.inr rfl
    · rw [if_neg hk]; exact hm

/-- If some `set` in a batch touches key k, and every such `set` writes v,
the batch leaves the map answering v at k. -/
theorem mapGet_applyBinds_exists (bs : List (String × String)) (k v : String) :
    ∀ m, (∀ kv ∈ bs, kv.1 = k → kv.2 = v) → (∃ kv ∈ bs, kv.1 = k) →
      mapGet (applyBinds m bs) k = some v := by
  induction bs with
  | nil => intro m _ hex; rcases hex with ⟨kv, h, _⟩; simp at h
  | cons kv bs ih =>
    intro m hb hex
    have he : applyBinds m (kv :: bs) = applyBinds (mapSet m kv.1 kv.2) bs := rfl
    rw [he]
    by_cases hin : ∃ kv2 ∈ bs, kv2.1 = k
    · exact ih _ (fun kv2 h2 hk => hb kv2 (List.mem_cons_of_mem _ h2) hk) hin
    · rcases hex with ⟨kv3, h3, hk3⟩
      rcases List.mem_cons.mp h3 with rfl | h4
      · apply mapGet_applyBinds_some bs k v _
          (fun kv2 h2 hk => hb kv2 (List.mem_cons_of_mem _ h2) hk)
        rw [mapGet_mapSet, if_pos hk3.symm,
          hb kv3 (List.mem_cons_self _ _) hk3]
      · exact absurd ⟨kv3, h4, hk3⟩ hin

/-- Folding taxonomy entries preserves an answer of v at key k when every
binding at k across the entries writes v. -/
theorem mapGet_buildFold_some (binds : TagGuide → List (String × String))
    (guide : List TagGuide) (k v : String) :
    ∀ m, (∀ tg ∈ guide, ∀ kv ∈ binds tg, kv.1 = k → kv.2 = v) →
      mapGet m k = some v →
      mapGet (guide.foldl (fun m2 tg => applyBinds m2 (binds tg)) m) k = some v := by
  induction guide with
  | nil => intro m _ hm; simpa using hm
  | cons tg guide ih =>
    intro m hb hm
    rw [List.foldl_cons]
    apply ih _ (fun tg2 h2 => hb tg2 (List.mem_cons_of_mem _ h2))
    exact mapGet_applyBinds_some _ k v m (hb tg (List.mem_cons_self _ _)) hm

/-- Folding taxonomy entries keeps the answer at key k in {none, v} when
every binding at k across the entries writes v. -/
theorem mapGet_buildFold_disj (binds : TagGuide → List (String × String))
    (guide : List TagGuide) (k v : String) :
    ∀ m, (∀ tg ∈ guide, ∀ kv ∈ binds tg, kv.1 = k → kv.2 = v) →
      mapGet m k = none ∨ mapGet m k = some v →
      mapGet (guide.foldl (fun m2 tg => applyBinds m2 (binds tg)) m) k = none ∨
      mapGet (guide.foldl (fun m2 tg => applyBinds m2 (binds tg)) m) k = some v := by
  induction guide with
  | nil => intro m _ hm; simpa using hm
  | cons tg guide ih =>
    intro m hb hm
    rw [List.foldl_cons]
    apply ih _ (fun tg2 h2 => hb tg2 (List.mem_cons_of_mem _ h2))
    exact mapGet_applyBinds_disj _ k v m (hb tg (List.mem_cons_self _ _)) hm

/-- Folding taxonomy entries answers v at key k when some entry binds k and
every binding at k across the entries writes v. -/
theorem mapGet_buildFold_exists (binds : TagGuide → List (String × String))
    (guide : List TagGuide) (k v : String) :
    ∀ m, (∀ tg ∈ guide, ∀ kv ∈ binds tg, kv.1 = k → kv.2 = v) →
      (∃ tg ∈ guide, ∃ kv ∈ binds tg, kv.1 = k) →
      mapGet (guide.foldl (fun m2 tg => applyBinds m2 (binds tg)) m) k = some v := by
  induction guide with
  | nil => intro m _ hex; rcases hex with ⟨tg, h, _⟩; simp at h
  | cons tg guide ih =>
    intro m hb hex
    rw [List.foldl_cons]
    by_cases hin : ∃ tg2 ∈ guide, ∃ kv ∈ binds tg2, kv.1 = k
    · exact ih _ (fun tg2 h2 => hb tg2 (List.mem_cons_of_mem _ h2)) hin
    · rcases hex with ⟨tg3, h3, hex3⟩
      rcases List.mem_cons.mp h3 with rfl | h4
      · apply mapGet_buildFold_some _ _ k v _
          (fun tg2 h2 => hb tg2 (List.mem_cons_of_mem _ h2))
        exact mapGet_applyBinds_exists _ k v m
          (hb tg3 (List.mem_cons_self _ _)) hex3
      · exact absurd ⟨tg3, h4, hex3⟩ hin

/-- Replacing non-breaking spaces is absorbed by normalizeTagKey, which
performs the same replacement as its first step. -/
theorem normalizeTagKey_nbspToSpace (s : String) :
    normalizeTagKey (nbspToSpace s) = normalizeTagKey s := by
  have hmm : List.map (fun c => if c = ' ' then ' ' else c)
        (List.map (fun c => if c = ' ' then ' ' else c) s.data)
      = List.map (fun c => if c = ' ' then ' ' else c) s.data := by
    rw [List.map_map]
    apply List.map_congr_left
    intro c _
    by_cases h : c = ' ' <;> simp [h]
  simp only [normalizeTagKey, nbspToSpace]
  rw [hmm]

/-- Claim C4 counterexample: food_access is a canonical identifier of the
loaded taxonomy collisionGuide, yet canonicalizeTag maps it to food: the
display-name table is consulted first, and the display name Food Access
of the entry food normalizes (whitespace to underscores) to the key
food_access. -/
theorem canonicalizeTag_not_fixed_cex :
    ("food_access" ∈ collisionGuide.map (fun tg => tg.tag)) ∧
    canonicalizeTag collisionGuide "food_access" = "food" ∧
    canonicalizeTag collisionGuide "food_access" ≠ "food_access" := by decide

/-- Claim C4 (amended): canonicalizeTag returns a canonical identifier t of
the loaded taxonomy unchanged provided its normalized key is nonempty and
uncontested: every display-name or identifier binding that the table
construction makes at the key of t writes t itself (in particular, no
other entry has a display-name or identifier variant normalizing to the
key of t). -/
theorem canonicalizeTag_fixed_on_canonical (guide : List TagGuide) (t : String)
    (hne : t ≠ "") (hkey : normalizeTagKey t ≠ "")
    (hmem : ∃ tg ∈ guide, trimStr tg.tag = t)
    (hdisp : ∀ tg ∈ guide, ∀ kv ∈ displayBinds tg,
      kv.1 = normalizeTagKey t → kv.2 = t)
    (htag : ∀ tg ∈ guide, ∀ kv ∈ tagBinds tg,
      kv.1 = normalizeTagKey t → kv.2 = t) :
    canonicalizeTag guide t = t := by
  have htagget : mapGet (buildTagLowerToTag guide) (normalizeTagKey t) = some t := by
    apply mapGet_buildFold_exists tagBinds guide _ t [] htag
    rcases hmem with ⟨tg0, hmem0, heq0⟩
    refine ⟨tg0, hmem0, (normalizeTagKey t, t), ?_, rfl⟩
    simp [tagBinds, heq0, hne]
  have hdispget := mapGet_buildFold_disj displayBinds guide
    (normalizeTagKey t) t [] hdisp (Or.inl rfl)
  simp only [canonicalizeTag, normalizeTagKey_nbspToSpace]
  rw [if_neg hkey]
  rcases hdispget with hnone | hsome
  · rw [show buildDisplayToTag guide
        = guide.foldl (fun m2 tg => applyBinds m2 (displayBinds tg)) [] from rfl,
      hnone,
      show buildTagLowerToTag guide
        = guide.foldl (fun m2 tg => applyBinds m2 (tagBinds tg)) [] from rfl]
    rw [show guide.foldl (fun m2 tg => applyBinds m2 (tagBinds tg)) []
        = buildTagLowerToTag guide from rfl, htagget]
    simp [jsOrOpt, jsOr, hne]
  · rw [show buildDisplayToTag guide
        = guide.foldl (fun m2 tg => applyBinds m2 (displayBinds tg)) [] from rfl,
      hsome]
    simp [jsOrOpt, jsOr, hne]

/-- Claim C4 witness: in a taxonomy without cross-entry key collisions,
canonicalizing the canonical identifier esol_classes is the identity. -/
theorem canonicalizeTag_fixed_on_canonical_witness :
    canonicalizeTag esolGuide "esol_classes" = "esol_classes" :=
  canonicalizeTag_fixed_on_canonical esolGuide "esol_classes"
    (by decide) (by decide) (by decide) (by decide) (by decide)

/-- Claim C2 witness: the characterization applied at a concrete selection. -/
theorem matchTags_and_semantics_witness :
    matchTags ["A"] taggedABC = true :=
  (matchTags_and_semantics.1 ["A"] taggedABC).mpr
    (Or.inr (by intro t ht; simp at ht; subst ht; decide))
